import Mathlib

/-!
Verification of the shop-registration form service (`src/server.py`).

The service is a thin CRUD layer over a document store plus a spreadsheet
renderer.  We embed it shallowly:

* a stored document is an association list `List (String × String)` (string
  keys to string values, as the service only ever stores string values once
  `created_at` is serialized);
* the store is the list of documents in insertion order (MongoDB `insert_one`
  appends, unindexed `find` returns natural order);
* each HTTP handler becomes an explicit state-passing function
  `Store → Store × Output`;
* `uuid.uuid4()` is modelled by its 128-bit random value `n : Nat` and the
  canonical 8-4-4-4-12 lowercase-hex rendering `str(uuid)` applied to it;
* `datetime.now(timezone.utc)` is modelled by an explicit `PyDateTime`
  argument, with Python's `datetime.isoformat` rendered faithfully.
-/

deriving instance DecidableEq for Except

/-- A MongoDB document: ordered string keys to string values. -/
abbrev Doc := List (String × String)

/-- The `form_submissions` collection in insertion order. -/
abbrev Store := List Doc

/-- `d.get(k)` / `d[k]` lookup on a Python dict embedded as an assoc list. -/
def docGet (d : Doc) (k : String) : Option String :=
  (d.find? (fun kv => kv.1 == k)).map (fun kv => kv.2)

/-- `d[k]`: raises `KeyError` (here: `.error k`) when the key is absent. -/
def docIndex (d : Doc) (k : String) : Except String String :=
  match docGet d k with
  | some v => .ok v
  | none => .error k

/-! ### uuid4 rendering: `str(uuid.uuid4())` -/

/-- Lowercase hex digit character for `m < 16` (as in Python `'%x'`). -/
def toHexDigit (m : Nat) : Char :=
  if m < 16 then
    if m < 10 then Char.ofNat (48 + m) else Char.ofNat (87 + m)
  else '0'

/-- Zero-padded fixed-width base-`16` rendering, most significant first
(Python `'%032x' % n` when `w = 32`). -/
def padHex : Nat → Nat → List Char
  | 0, _ => []
  | w + 1, n => padHex w (n / 16) ++ [toHexDigit (n % 16)]

/-- `str(uuid.UUID(int=n))`: the 32 hex digits of `n mod 2^128` grouped
8-4-4-4-12 with hyphens. -/
def uuidToString (n : Nat) : String :=
  let ds := padHex 32 (n % 2 ^ 128)
  String.mk (ds.take 8 ++ '-' :: (ds.drop 8).take 4 ++ '-' :: (ds.drop 12).take 4
    ++ '-' :: (ds.drop 16).take 4 ++ '-' :: ds.drop 20)

/-! ### `datetime` and `isoformat` -/

/-- A Python `datetime` with `tzinfo=timezone.utc` (the only kind the service
creates).  Components satisfy the usual `datetime` bounds, which we do not
need to track for the claims. -/
structure PyDateTime where
  year : Nat
  month : Nat
  day : Nat
  hour : Nat
  minute : Nat
  second : Nat
  microsecond : Nat
deriving DecidableEq

/-- Zero-padded fixed-width decimal rendering (`'%02d'`, `'%04d'`, …). -/
def padDec : Nat → Nat → List Char
  | 0, _ => []
  | w + 1, n => padDec w (n / 10) ++ [Char.ofNat (48 + n % 10)]

/-- `'%0wd' % n` as a string (for in-range `datetime` components). -/
def natPad (w n : Nat) : String := String.mk (padDec w n)

/-- Python `datetime.isoformat()` for a UTC-aware datetime:
`YYYY-MM-DDTHH:MM:SS[.ffffff]+00:00`, microseconds omitted when zero. -/
def isoformat (t : PyDateTime) : String :=
  natPad 4 t.year ++ "-" ++ natPad 2 t.month ++ "-" ++ natPad 2 t.day ++ "T"
    ++ natPad 2 t.hour ++ ":" ++ natPad 2 t.minute ++ ":" ++ natPad 2 t.second
    ++ (if t.microsecond = 0 then "" else "." ++ natPad 6 t.microsecond)
    ++ "+00:00"

/-! ### Data model and validation (`FormSubmissionCreate`) -/

/-- An inbound JSON payload for `POST /api/submissions`: the ten declared
fields plus any unrecognized extra fields (pydantic ignores extras). -/
structure RawPayload where
  mobile_no : String
  shop_name : String
  owner_name : String
  ind_name : String
  area_pin_code : String
  address : String
  city : String
  dist : String
  state : String
  country : String
  extra : List (String × String)
deriving DecidableEq

/-- The validated create model: `FormSubmissionCreate` after pydantic
validation succeeded (only the ten declared fields survive). -/
structure FormSubmissionCreate where
  mobile_no : String
  shop_name : String
  owner_name : String
  ind_name : String
  area_pin_code : String
  address : String
  city : String
  dist : String
  state : String
  country : String
deriving DecidableEq

/-- The `FormSubmissionResponse` model: all twelve fields, `created_at`
already an ISO string. -/
structure FormSubmissionResponse where
  id : String
  mobile_no : String
  shop_name : String
  owner_name : String
  ind_name : String
  area_pin_code : String
  address : String
  city : String
  dist : String
  state : String
  country : String
  created_at : String
deriving DecidableEq

/-- A pydantic validation error: the offending field and the violated
constraint. -/
structure FieldError where
  field : String
  constraint : String
deriving DecidableEq

/-- The declared fields of `FormSubmissionCreate` in declaration order, each
with its shape check: `mobile_no` must match `^\d{10}$` (with
`min_length=10, max_length=10`), `area_pin_code` must match `^\d{6}$` (with
`min_length=6, max_length=6`), and every other field has `min_length=1`. -/
def fieldChecks : List (String × (RawPayload → Bool)) :=
  [("mobile_no", fun p => p.mobile_no.length == 10 && p.mobile_no.toList.all Char.isDigit),
   ("shop_name", fun p => !p.shop_name.isEmpty),
   ("owner_name", fun p => !p.owner_name.isEmpty),
   ("ind_name", fun p => !p.ind_name.isEmpty),
   ("area_pin_code", fun p => p.area_pin_code.length == 6 && p.area_pin_code.toList.all Char.isDigit),
   ("address", fun p => !p.address.isEmpty),
   ("city", fun p => !p.city.isEmpty),
   ("dist", fun p => !p.dist.isEmpty),
   ("state", fun p => !p.state.isEmpty),
   ("country", fun p => !p.country.isEmpty)]

/-- Pydantic validation of `FormSubmissionCreate`: every declared field is
checked in declaration order; each failing field contributes an error naming
it.  Extra fields are never consulted. -/
def validationErrors (p : RawPayload) : List FieldError :=
  fieldChecks.filterMap (fun fc => if fc.2 p then none else some ⟨fc.1, "invalid shape"⟩)

/-- Deserializing the request body into `FormSubmissionCreate`: succeeds with
the ten declared fields (extras dropped) iff no field fails its shape check;
otherwise fails with the list of validation errors (a 422 response). -/
def validateCreate (p : RawPayload) : Except (List FieldError) FormSubmissionCreate :=
  if validationErrors p = [] then
    .ok ⟨p.mobile_no, p.shop_name, p.owner_name, p.ind_name, p.area_pin_code,
         p.address, p.city, p.dist, p.state, p.country⟩
  else
    .error (validationErrors p)

/-! ### `POST /api/submissions` — `create_submission` -/

/-- The keys of a stored submission document, in `FormSubmission` field
declaration order (the order `model_dump` emits). -/
def docKeys : List String :=
  ["id", "mobile_no", "shop_name", "owner_name", "ind_name", "area_pin_code",
   "address", "city", "dist", "state", "country", "created_at"]

/-- `create_submission`: builds a `FormSubmission` from the validated input
with a fresh uuid4 `id` (random value `gen`) and `created_at = now`,
serializes `created_at` to ISO, inserts the document, and returns the
response echoing the stored document. -/
def create_submission (input : FormSubmissionCreate) (gen : Nat) (now : PyDateTime)
    (store : Store) : Store × FormSubmissionResponse :=
  let idStr := uuidToString gen
  let iso := isoformat now
  let doc : Doc :=
    [("id", idStr), ("mobile_no", input.mobile_no), ("shop_name", input.shop_name),
     ("owner_name", input.owner_name), ("ind_name", input.ind_name),
     ("area_pin_code", input.area_pin_code), ("address", input.address),
     ("city", input.city), ("dist", input.dist), ("state", input.state),
     ("country", input.country), ("created_at", iso)]
  (store ++ [doc],
   ⟨idStr, input.mobile_no, input.shop_name, input.owner_name, input.ind_name,
    input.area_pin_code, input.address, input.city, input.dist, input.state,
    input.country, iso⟩)

/-! ### `GET /api/submissions` — `get_submissions` -/

/-- Building one `FormSubmissionResponse` from a stored document with
`sub['k']` indexing: any missing key raises (propagates as `.error`). -/
def toResponse (d : Doc) : Except String FormSubmissionResponse := do
  let i ← docIndex d "id"
  let mo ← docIndex d "mobile_no"
  let sh ← docIndex d "shop_name"
  let ow ← docIndex d "owner_name"
  let ind ← docIndex d "ind_name"
  let pin ← docIndex d "area_pin_code"
  let ad ← docIndex d "address"
  let ci ← docIndex d "city"
  let di ← docIndex d "dist"
  let st ← docIndex d "state"
  let co ← docIndex d "country"
  let cr ← docIndex d "created_at"
  pure ⟨i, mo, sh, ow, ind, pin, ad, ci, di, st, co, cr⟩

/-- The `for sub in submissions: result.append(...)` loop: responses in
order, the first failure aborting the whole request. -/
def buildResponses : List Doc → Except String (List FormSubmissionResponse)
  | [] => .ok []
  | d :: rest =>
    match toResponse d with
    | .error e => .error e
    | .ok r =>
      match buildResponses rest with
      | .error e => .error e
      | .ok rs => .ok (r :: rs)

/-- `get_submissions`: fetches at most 1000 documents (`to_list(1000)`) in
store order and converts each.  Reads only: the store is returned unchanged. -/
def get_submissions (store : Store) :
    Store × Except String (List FormSubmissionResponse) :=
  (store, buildResponses (store.take 1000))

/-! ### `GET /api/submissions/export` — `export_submissions_excel` -/

/-- A spreadsheet cell: `S.No` cells hold an integer, all others a string. -/
inductive Cell where
  | num : Nat → Cell
  | str : String → Cell
deriving DecidableEq

/-- The fixed header titles. -/
def headers : List String :=
  ["S.No", "Mobile No.", "Shop Name", "Owner Name", "Industry Name",
   "Pin Code", "Address", "City", "District", "State", "Country", "Submitted At"]

/-- Row 1 of the worksheet. -/
def headerRow : List Cell := headers.map Cell.str

/-- The document keys read into a data row, in column order (columns 2..12). -/
def exportKeys : List String :=
  ["mobile_no", "shop_name", "owner_name", "ind_name", "area_pin_code",
   "address", "city", "dist", "state", "country", "created_at"]

/-- `row_data` for one document: sequence number then `sub.get(k, '')` for
each field key — a missing key yields the empty string, never a failure. -/
def dataRow (seq : Nat) (d : Doc) : List Cell :=
  Cell.num seq :: exportKeys.map (fun k => Cell.str ((docGet d k).getD ""))

/-- The `for row_idx, sub in enumerate(submissions, 2)` loop: data rows from
worksheet row `rowIdx`, each carrying sequence number `rowIdx - 1`. -/
def writeRows : Nat → List Doc → List (List Cell)
  | _, [] => []
  | rowIdx, d :: rest => dataRow (rowIdx - 1) d :: writeRows (rowIdx + 1) rest

/-- The rendered worksheet: header row then one data row per fetched
document. -/
def renderRows (subs : List Doc) : List (List Cell) :=
  headerRow :: writeRows 2 subs

/-- `export_submissions_excel`: fetches at most 1000 documents
(`to_list(1000)`) and renders the worksheet.  Reads only: the store is
returned unchanged. -/
def export_submissions_excel (store : Store) : Store × List (List Cell) :=
  (store, renderRows (store.take 1000))

/-! ### `DELETE /api/submissions/{id}` — `delete_submission` -/

/-- `delete_one({"id": sid})`: removes the first document whose `id` field
equals `sid`; returns the new collection and `deleted_count` (0 or 1). -/
def deleteFirstById : Store → String → Store × Nat
  | [], _ => ([], 0)
  | d :: rest, sid =>
    if docGet d "id" = some sid then (rest, 1)
    else
      let r := deleteFirstById rest sid
      (d :: r.1, r.2)

/-- The delete endpoint's JSON body. -/
structure DeleteResult where
  success : Bool
  message : String
deriving DecidableEq

/-- `delete_submission`: deletes by id; `deleted_count == 0` yields the
not-found body, otherwise the deleted body.  Both are 200 responses. -/
def delete_submission (store : Store) (sid : String) : Store × DeleteResult :=
  let r := deleteFirstById store sid
  if r.2 = 0 then (r.1, ⟨false, "Submission not found"⟩)
  else (r.1, ⟨true, "Submission deleted"⟩)

/-! ## Helper lemmas -/

theorem padHex_length (w : Nat) : ∀ n, (padHex w n).length = w := by
  induction w with
  | zero => intro n; rfl
  | succ w ih => intro n; simp [padHex, ih]

/-- Numeric value of a lowercase hex digit character. -/
def hexDigitVal (c : Char) : Nat :=
  if 97 ≤ c.toNat then c.toNat - 87 else c.toNat - 48

/-- Value of a big-endian hex digit list. -/
def hexListVal (l : List Char) : Nat :=
  l.foldl (fun a c => 16 * a + hexDigitVal c) 0

theorem hexDigitVal_toHexDigit : ∀ m, m < 16 → hexDigitVal (toHexDigit m) = m := by decide

theorem toHexDigit_ne_dash : ∀ m, m < 16 → toHexDigit m ≠ '-' := by decide

theorem hexListVal_append_digit (l : List Char) (c : Char) :
    hexListVal (l ++ [c]) = 16 * hexListVal l + hexDigitVal c := by
  simp [hexListVal, List.foldl_append]

theorem hexListVal_padHex (w : Nat) : ∀ m, m < 16 ^ w → hexListVal (padHex w m) = m := by
  induction w with
  | zero =>
    intro m hm
    interval_cases m
    rfl
  | succ w ih =>
    intro m hm
    have hdiv : m / 16 < 16 ^ w := by
      rw [Nat.div_lt_iff_lt_mul (by norm_num)]
      calc m < 16 ^ (w + 1) := hm
        _ = 16 ^ w * 16 := by ring
    rw [padHex, hexListVal_append_digit, ih _ hdiv,
      hexDigitVal_toHexDigit _ (Nat.mod_lt _ (by norm_num))]
    omega

theorem padHex_ne_dash (w : Nat) : ∀ n c, c ∈ padHex w n → c ≠ '-' := by
  induction w with
  | zero => intro n c hc; simp [padHex] at hc
  | succ w ih =>
    intro n c hc
    rw [padHex] at hc
    rcases List.mem_append.mp hc with h | h
    · exact ih _ _ h
    · rcases List.mem_singleton.mp h with rfl
      exact toHexDigit_ne_dash _ (Nat.mod_lt _ (by norm_num))

theorem uuidToString_length (n : Nat) : (uuidToString n).length = 36 := by
  simp [uuidToString, String.length, padHex_length]

theorem uuidToString_ne_empty (n : Nat) : uuidToString n ≠ "" := by
  intro h
  have h2 := congrArg String.length h
  rw [uuidToString_length] at h2
  simp at h2

theorem filter_dashes (ds : List Char) (hnd : ∀ c ∈ ds, c ≠ '-') :
    (ds.take 8 ++ '-' :: (ds.drop 8).take 4 ++ '-' :: (ds.drop 12).take 4
      ++ '-' :: (ds.drop 16).take 4 ++ '-' :: ds.drop 20).filter (fun c => c != '-') = ds := by
  have hseg : ∀ l : List Char, (∀ c ∈ l, c ≠ '-') → l.filter (fun c => c != '-') = l := by
    intro l hl
    apply List.filter_eq_self.mpr
    intro a ha
    simpa using hl a ha
  have h8 := hseg (ds.take 8) (fun c hc => hnd c (List.mem_of_mem_take hc))
  have h12 := hseg ((ds.drop 8).take 4)
    (fun c hc => hnd c (List.mem_of_mem_drop (List.mem_of_mem_take hc)))
  have h16 := hseg ((ds.drop 12).take 4)
    (fun c hc => hnd c (List.mem_of_mem_drop (List.mem_of_mem_take hc)))
  have h20 := hseg ((ds.drop 16).take 4)
    (fun c hc => hnd c (List.mem_of_mem_drop (List.mem_of_mem_take hc)))
  have hrest := hseg (ds.drop 20) (fun c hc => hnd c (List.mem_of_mem_drop hc))
  have e12 : ds.take 8 ++ (ds.drop 8).take 4 = ds.take 12 := by
    rw [← List.take_add]
  have e16 : ds.take 12 ++ (ds.drop 12).take 4 = ds.take 16 := by
    rw [← List.take_add]
  have e20 : ds.take 16 ++ (ds.drop 16).take 4 = ds.take 20 := by
    rw [← List.take_add]
  simp only [List.filter_append, List.filter_cons, h8, h12, h16, h20, hrest]
  norm_num
  calc ds.take 8 ++ ((ds.drop 8).take 4 ++ ((ds.drop 12).take 4 ++ ((ds.drop 16).take 4 ++ ds.drop 20)))
      = (((ds.take 8 ++ (ds.drop 8).take 4) ++ (ds.drop 12).take 4) ++ (ds.drop 16).take 4) ++ ds.drop 20 := by
        simp [List.append_assoc]
    _ = ds := by rw [e12, e16, e20, List.take_append_drop]

/-- `str(uuid)` is injective in the 128-bit value: distinct uuid4 draws yield
distinct id strings. -/
theorem uuidToString_inj (m n : Nat) (h : uuidToString m = uuidToString n) :
    m % 2 ^ 128 = n % 2 ^ 128 := by
  have hm16 : (16 : Nat) ^ 32 = 2 ^ 128 := by norm_num
  have hmlt : m % 2 ^ 128 < 16 ^ 32 := by
    rw [hm16]
    exact Nat.mod_lt _ (by positivity)
  have hnlt : n % 2 ^ 128 < 16 ^ 32 := by
    rw [hm16]
    exact Nat.mod_lt _ (by positivity)
  have hdata := congrArg (fun s => s.data.filter (fun c => c != '-')) h
  simp only [uuidToString] at hdata
  rw [filter_dashes _ (padHex_ne_dash 32 _), filter_dashes _ (padHex_ne_dash 32 _)] at hdata
  have hv := congrArg hexListVal hdata
  rw [hexListVal_padHex 32 _ hmlt, hexListVal_padHex 32 _ hnlt] at hv
  exact hv

theorem isEmpty_false_iff (s : String) : s.isEmpty = false ↔ s ≠ "" := by
  rw [← Bool.not_eq_true, not_iff_not]
  exact String.isEmpty_iff s

theorem validationErrors_nil_iff (p : RawPayload) :
    validationErrors p = [] ↔
      (p.mobile_no.length = 10 ∧ ∀ c ∈ p.mobile_no.toList, c.isDigit) ∧
      (p.area_pin_code.length = 6 ∧ ∀ c ∈ p.area_pin_code.toList, c.isDigit) ∧
      p.shop_name ≠ "" ∧ p.owner_name ≠ "" ∧ p.ind_name ≠ "" ∧ p.address ≠ "" ∧
      p.city ≠ "" ∧ p.dist ≠ "" ∧ p.state ≠ "" ∧ p.country ≠ "" := by
  simp [validationErrors, List.filterMap_eq_nil_iff, fieldChecks, isEmpty_false_iff]
  tauto

theorem mem_validationErrors (p : RawPayload) (e : FieldError)
    (he : e ∈ validationErrors p) :
    ∃ chk, (e.field, chk) ∈ fieldChecks ∧ chk p = false := by
  rw [validationErrors, List.mem_filterMap] at he
  obtain ⟨fc, hmem, hif⟩ := he
  by_cases hc : fc.2 p
  · rw [if_pos hc] at hif
    exact absurd hif (by simp)
  · rw [if_neg hc] at hif
    have hfe : e.field = fc.1 := by
      cases e
      injection hif with h
      rw [← h]
    refine ⟨fc.2, ?_, by simpa using hc⟩
    rw [hfe]
    exact hmem

/-- A stored document holding every submission field. -/
def hasAllKeys (d : Doc) : Bool :=
  docKeys.all (fun k => (docGet d k).isSome)

/-- The response `get_submissions` builds from a fully-populated document. -/
def mkResp (d : Doc) : FormSubmissionResponse :=
  ⟨(docGet d "id").getD "", (docGet d "mobile_no").getD "", (docGet d "shop_name").getD "",
   (docGet d "owner_name").getD "", (docGet d "ind_name").getD "",
   (docGet d "area_pin_code").getD "", (docGet d "address").getD "",
   (docGet d "city").getD "", (docGet d "dist").getD "", (docGet d "state").getD "",
   (docGet d "country").getD "", (docGet d "created_at").getD ""⟩

theorem toResponse_ok (d : Doc) (h : hasAllKeys d = true) :
    toResponse d = .ok (mkResp d) := by
  rw [hasAllKeys] at h
  have hks : ∀ k ∈ docKeys, ∃ v, docGet d k = some v := by
    intro k hk
    exact Option.isSome_iff_exists.mp (by simpa using (List.all_eq_true.mp h k hk))
  obtain ⟨v1, h1⟩ := hks "id" (by simp [docKeys])
  obtain ⟨v2, h2⟩ := hks "mobile_no" (by simp [docKeys])
  obtain ⟨v3, h3⟩ := hks "shop_name" (by simp [docKeys])
  obtain ⟨v4, h4⟩ := hks "owner_name" (by simp [docKeys])
  obtain ⟨v5, h5⟩ := hks "ind_name" (by simp [docKeys])
  obtain ⟨v6, h6⟩ := hks "area_pin_code" (by simp [docKeys])
  obtain ⟨v7, h7⟩ := hks "address" (by simp [docKeys])
  obtain ⟨v8, h8⟩ := hks "city" (by simp [docKeys])
  obtain ⟨v9, h9⟩ := hks "dist" (by simp [docKeys])
  obtain ⟨v10, h10⟩ := hks "state" (by simp [docKeys])
  obtain ⟨v11, h11⟩ := hks "country" (by simp [docKeys])
  obtain ⟨v12, h12⟩ := hks "created_at" (by simp [docKeys])
  simp [toResponse, docIndex, mkResp, h1, h2, h3, h4, h5, h6, h7, h8, h9, h10, h11, h12]
  rfl

theorem buildResponses_ok (l : List Doc) (h : ∀ d ∈ l, hasAllKeys d = true) :
    buildResponses l = .ok (l.map mkResp) := by
  induction l with
  | nil => rfl
  | cons d rest ih =>
    rw [buildResponses, toResponse_ok d (h d (by simp)), ih (fun d' hd' => h d' (by simp [hd']))]
    rfl

theorem buildResponses_ok_length (l : List Doc) (r : List FormSubmissionResponse)
    (h : buildResponses l = .ok r) : r.length = l.length := by
  induction l generalizing r with
  | nil =>
    rw [buildResponses] at h
    injection h with h
    rw [← h]
    rfl
  | cons d rest ih =>
    rw [buildResponses] at h
    cases htr : toResponse d with
    | error e => rw [htr] at h; exact absurd h (by simp)
    | ok v =>
      rw [htr] at h
      cases hbr : buildResponses rest with
      | error e => rw [hbr] at h; exact absurd h (by simp)
      | ok vs =>
        rw [hbr] at h
        injection h with h
        rw [← h]
        simp [ih vs hbr]

theorem deleteFirst_not_found (sid : String) (store : Store)
    (h : ∀ d ∈ store, docGet d "id" ≠ some sid) :
    deleteFirstById store sid = (store, 0) := by
  induction store with
  | nil => rfl
  | cons d rest ih =>
    rw [deleteFirstById, if_neg (h d (by simp)), ih (fun d' hd' => h d' (by simp [hd']))]

theorem deleteFirst_found (sid : String) (store : Store)
    (h : ∃ d ∈ store, docGet d "id" = some sid) :
    ∃ pre d post, store = pre ++ d :: post ∧ docGet d "id" = some sid ∧
      (∀ d' ∈ pre, docGet d' "id" ≠ some sid) ∧
      deleteFirstById store sid = (pre ++ post, 1) := by
  induction store with
  | nil => simp at h
  | cons d rest ih =>
    by_cases hd : docGet d "id" = some sid
    · exact ⟨[], d, rest, by simp, hd, by simp, by rw [deleteFirstById, if_pos hd]; simp⟩
    · have hrest : ∃ d' ∈ rest, docGet d' "id" = some sid := by
        obtain ⟨d', hd', hh⟩ := h
        rcases List.mem_cons.mp hd' with rfl | hm
        · exact absurd hh hd
        · exact ⟨d', hm, hh⟩
      obtain ⟨pre, dd, post, he, hid, hpre, hdel⟩ := ih hrest
      refine ⟨d :: pre, dd, post, by simp [he], hid, ?_, ?_⟩
      · intro d' hd'
        rcases List.mem_cons.mp hd' with rfl | hm
        · exact hd
        · exact hpre _ hm
      · rw [deleteFirstById, if_neg hd, hdel]
        simp

theorem deleteFirst_sublist (sid : String) (store : Store) :
    (deleteFirstById store sid).1.Sublist store := by
  induction store with
  | nil => simp [deleteFirstById]
  | cons d rest ih =>
    rw [deleteFirstById]
    by_cases hd : docGet d "id" = some sid
    · rw [if_pos hd]
      exact List.sublist_cons_of_sublist d (List.Sublist.refl rest)
    · rw [if_neg hd]
      exact List.Sublist.cons₂ d ih

theorem writeRows_length (subs : List Doc) : ∀ n, (writeRows n subs).length = subs.length := by
  induction subs with
  | nil => intro n; rfl
  | cons d rest ih => intro n; simp [writeRows, ih]

theorem writeRows_get (subs : List Doc) :
    ∀ n i d, 1 ≤ n → subs[i]? = some d →
      (writeRows n subs)[i]? = some (dataRow (n - 1 + i) d) := by
  induction subs with
  | nil => intro n i d _ hget; simp at hget
  | cons hd rest ih =>
    intro n i d hn hget
    cases i with
    | zero =>
      rw [List.getElem?_cons_zero] at hget
      injection hget with hget
      rw [writeRows, List.getElem?_cons_zero, hget]
      norm_num
    | succ i =>
      rw [List.getElem?_cons_succ] at hget
      rw [writeRows, List.getElem?_cons_succ]
      have := ih (n + 1) i d (by omega) hget
      rw [this]
      congr 2
      omega

/-! ## Claim theorems -/

/-- A well-formed sample payload used for concrete checks. -/
def samplePayload (m pin : String) : RawPayload :=
  ⟨m, "Shop", "Owner", "Ind", pin, "Addr", "City", "Dist", "State", "India", []⟩

/-- C1: For every valid payload, `Create` returns a record whose `id` is a
non-empty string and whose fields `mobile_no`, `shop_name`, `owner_name`,
`ind_name`, `area_pin_code`, `address`, `city`, `dist`, `state`, `country`
exactly equal the corresponding input fields, with `id` and `created_at`
generated server-side (from the uuid4 draw and the current UTC time). -/
theorem create_echoes_valid_payload (raw : RawPayload) (c : FormSubmissionCreate)
    (gen : Nat) (now : PyDateTime) (store : Store)
    (hok : validateCreate raw = .ok c) :
    (create_submission c gen now store).2.id ≠ "" ∧
    (create_submission c gen now store).2.mobile_no = raw.mobile_no ∧
    (create_submission c gen now store).2.shop_name = raw.shop_name ∧
    (create_submission c gen now store).2.owner_name = raw.owner_name ∧
    (create_submission c gen now store).2.ind_name = raw.ind_name ∧
    (create_submission c gen now store).2.area_pin_code = raw.area_pin_code ∧
    (create_submission c gen now store).2.address = raw.address ∧
    (create_submission c gen now store).2.city = raw.city ∧
    (create_submission c gen now store).2.dist = raw.dist ∧
    (create_submission c gen now store).2.state = raw.state ∧
    (create_submission c gen now store).2.country = raw.country ∧
    (create_submission c gen now store).2.id = uuidToString gen ∧
    (create_submission c gen now store).2.created_at = isoformat now := by
  have hc : c = ⟨raw.mobile_no, raw.shop_name, raw.owner_name, raw.ind_name,
      raw.area_pin_code, raw.address, raw.city, raw.dist, raw.state, raw.country⟩ := by
    rw [validateCreate] at hok
    split at hok
    · injection hok with h
      rw [← h]
    · exact absurd hok (by simp)
  subst hc
  refine ⟨?_, ?_⟩
  · simpa [create_submission] using uuidToString_ne_empty gen
  · simp [create_submission]

/-- C1 witness: the theorem applied to a concrete valid payload. -/
theorem create_echoes_valid_payload_witness :
    (create_submission ⟨"1234567890", "Shop", "Owner", "Ind", "123456", "Addr",
      "City", "Dist", "State", "India"⟩ 5 ⟨2026, 10, 12, 0, 0, 0, 0⟩ []).2.id ≠ "" :=
  (create_echoes_valid_payload (samplePayload "1234567890" "123456")
    ⟨"1234567890", "Shop", "Owner", "Ind", "123456", "Addr", "City", "Dist",
     "State", "India"⟩ 5 ⟨2026, 10, 12, 0, 0, 0, 0⟩ [] (by decide)).1

/-- C2: Validation accepts a payload iff `mobile_no` is exactly 10 digits,
`area_pin_code` is exactly 6 digits, and every text field is non-empty; any
violation is rejected with an error naming the offending field; a 5-digit
`mobile_no` is rejected while a 10-digit one is accepted, and likewise for a
5- versus 6-digit `area_pin_code`. -/
theorem validation_accepts_iff_shapes :
    (∀ p : RawPayload, validationErrors p = [] ↔
      (p.mobile_no.length = 10 ∧ ∀ c ∈ p.mobile_no.toList, c.isDigit) ∧
      (p.area_pin_code.length = 6 ∧ ∀ c ∈ p.area_pin_code.toList, c.isDigit) ∧
      p.shop_name ≠ "" ∧ p.owner_name ≠ "" ∧ p.ind_name ≠ "" ∧ p.address ≠ "" ∧
      p.city ≠ "" ∧ p.dist ≠ "" ∧ p.state ≠ "" ∧ p.country ≠ "") ∧
    (∀ p : RawPayload, ∀ e ∈ validationErrors p,
      ∃ chk, (e.field, chk) ∈ fieldChecks ∧ chk p = false) ∧
    validationErrors (samplePayload "12345" "123456") =
      [⟨"mobile_no", "invalid shape"⟩] ∧
    validationErrors (samplePayload "1234567890" "123456") = [] ∧
    validationErrors (samplePayload "1234567890" "12345") =
      [⟨"area_pin_code", "invalid shape"⟩] ∧
    validateCreate (samplePayload "1234567890" "123456") =
      .ok ⟨"1234567890", "Shop", "Owner", "Ind", "123456", "Addr", "City",
           "Dist", "State", "India"⟩ := by
  refine ⟨validationErrors_nil_iff, mem_validationErrors, ?_, ?_, ?_, ?_⟩ <;> decide

/-- C3: the rendered spreadsheet is the fixed header row followed by exactly
one data row per fetched record in list order, sequence numbers 1..N by
position; zero records yield the header row only. -/
theorem export_rows_structure :
    (∀ subs : List Doc, (renderRows subs).length = subs.length + 1) ∧
    (∀ subs : List Doc, (renderRows subs)[0]? = some headerRow) ∧
    headerRow = [Cell.str "S.No", Cell.str "Mobile No.", Cell.str "Shop Name",
      Cell.str "Owner Name", Cell.str "Industry Name", Cell.str "Pin Code",
      Cell.str "Address", Cell.str "City", Cell.str "District", Cell.str "State",
      Cell.str "Country", Cell.str "Submitted At"] ∧
    (∀ (subs : List Doc) (i : Nat) (d : Doc), subs[i]? = some d →
      (renderRows subs)[i + 1]? = some (dataRow (i + 1) d)) ∧
    (∀ (seq : Nat) (d : Doc), (dataRow seq d)[0]? = some (Cell.num seq)) ∧
    renderRows [] = [headerRow] ∧
    (∀ store : Store, (export_submissions_excel store).2 = renderRows (store.take 1000)) := by
  refine ⟨?_, ?_, by decide, ?_, ?_, rfl, fun store => rfl⟩
  · intro subs
    simp [renderRows, writeRows_length]
  · intro subs
    rw [renderRows, List.getElem?_cons_zero]
  · intro subs i d hget
    rw [renderRows, List.getElem?_cons_succ]
    have := writeRows_get subs 2 i d (by omega) hget
    rw [this]
    congr 2
    omega
  · intro seq d
    rw [dataRow, List.getElem?_cons_zero]

/-- A fully-populated sample stored document. -/
def sampleDoc : Doc :=
  [("id", "abc"), ("mobile_no", "1234567890"), ("shop_name", "Shop"),
   ("owner_name", "Owner"), ("ind_name", "Ind"), ("area_pin_code", "123456"),
   ("address", "Addr"), ("city", "City"), ("dist", "Dist"), ("state", "State"),
   ("country", "India"), ("created_at", "2026-10-12T00:00:00+00:00")]

/-- C4: `List` returns all stored records in store order, capped at 1000,
and an empty sequence (not an error) when none exist. -/
theorem list_returns_all_capped :
    (∀ store : Store, (∀ d ∈ store, hasAllKeys d = true) →
      (get_submissions store).2 = .ok ((store.take 1000).map mkResp)) ∧
    (get_submissions []).2 = .ok [] ∧
    (∀ (store : Store) (l : List FormSubmissionResponse),
      (get_submissions store).2 = .ok l → l.length = min store.length 1000) := by
  refine ⟨?_, rfl, ?_⟩
  · intro store h
    exact buildResponses_ok _ (fun d hd => h d (List.mem_of_mem_take hd))
  · intro store l h
    have h2 := buildResponses_ok_length _ _ h
    simp only [List.length_take] at h2
    omega

/-- C4 witness: a singleton store lists exactly its record. -/
theorem list_returns_all_capped_witness :
    (get_submissions [sampleDoc]).2 = .ok [mkResp sampleDoc] := by
  have h := list_returns_all_capped.1 [sampleDoc] (by decide)
  simpa using h

/-- C5: `Delete(id)` reports found-and-deleted versus not-found as a boolean
rather than raising; an id not present in the store yields the not-found
outcome and leaves the store unchanged, while a present id is removed
(the first matching record). -/
theorem delete_found_vs_not_found (store : Store) (sid : String) :
    ((delete_submission store sid).2.success = false ↔
      ∀ d ∈ store, docGet d "id" ≠ some sid) ∧
    ((∀ d ∈ store, docGet d "id" ≠ some sid) →
      (delete_submission store sid).1 = store ∧
      (delete_submission store sid).2.message = "Submission not found") ∧
    ((∃ d ∈ store, docGet d "id" = some sid) →
      (delete_submission store sid).2.success = true ∧
      (delete_submission store sid).2.message = "Submission deleted" ∧
      ∃ pre d post, store = pre ++ d :: post ∧ docGet d "id" = some sid ∧
        (delete_submission store sid).1 = pre ++ post) := by
  by_cases hex : ∃ d ∈ store, docGet d "id" = some sid
  · obtain ⟨pre, d0, post, hsplit, hid, hpre, hdel⟩ := deleteFirst_found sid store hex
    have hds : delete_submission store sid = (pre ++ post, ⟨true, "Submission deleted"⟩) := by
      rw [delete_submission, hdel]
      norm_num
    refine ⟨?_, ?_, ?_⟩
    · rw [hds]
      simp only []
      constructor
      · intro hfalse
        exact absurd hfalse (by simp)
      · intro hall
        obtain ⟨d', hd', hh⟩ := hex
        exact absurd hh (hall d' hd')
    · intro hall
      obtain ⟨d', hd', hh⟩ := hex
      exact absurd hh (hall d' hd')
    · intro _
      rw [hds]
      exact ⟨rfl, rfl, pre, d0, post, hsplit, hid, rfl⟩
  · have hall : ∀ d ∈ store, docGet d "id" ≠ some sid := by
      intro d hd hc
      exact hex ⟨d, hd, hc⟩
    have hds : delete_submission store sid = (store, ⟨false, "Submission not found"⟩) := by
      rw [delete_submission, deleteFirst_not_found sid store hall]
      norm_num
    refine ⟨?_, fun _ => ⟨by rw [hds], by rw [hds]⟩, fun hcon => absurd hcon hex⟩
    rw [hds]
    simpa using hall

/-- C5 witness: deleting a never-created id from a concrete store. -/
theorem delete_not_found_witness :
    (delete_submission [sampleDoc] "nope").1 = [sampleDoc] ∧
    (delete_submission [sampleDoc] "nope").2.message = "Submission not found" :=
  (delete_found_vs_not_found [sampleDoc] "nope").2.1 (by decide)

/-- The document inserted by one `create_submission` call: appended at the
end of the collection, its `id` is the rendered uuid4 draw, its `created_at`
the ISO-serialized current time, and its keys exactly the twelve model
fields. -/
theorem create_submission_store (input : FormSubmissionCreate) (gen : Nat)
    (now : PyDateTime) (store : Store) :
    ∃ doc : Doc, (create_submission input gen now store).1 = store ++ [doc] ∧
      docGet doc "id" = some (uuidToString gen) ∧
      docGet doc "created_at" = some (isoformat now) ∧
      doc.map Prod.fst = docKeys := by
  refine ⟨_, rfl, ?_, ?_, ?_⟩
  · simp [docGet]
  · simp [docGet]
  · simp [docKeys]

/-- Both branches of the delete endpoint return the collection that
`delete_one` produced. -/
theorem delete_submission_store (store : Store) (sid : String) :
    (delete_submission store sid).1 = (deleteFirstById store sid).1 := by
  rw [delete_submission]
  split <;> rfl

/-- The uniqueness invariant: no two stored documents share an `id`. -/
def UniqueIds (store : Store) : Prop :=
  store.Pairwise (fun a b => docGet a "id" ≠ docGet b "id")

/-- C6: distinct uuid4 draws render to distinct ids, so two successive
`Create` calls (whose 128-bit random values differ) never produce the same
id; `Create` with a fresh id, `Delete`, `List` and `Export` all preserve the
id-uniqueness invariant. -/
theorem ids_unique_invariant :
    (∀ m n : Nat, m % 2 ^ 128 ≠ n % 2 ^ 128 → uuidToString m ≠ uuidToString n) ∧
    (∀ (input : FormSubmissionCreate) (gen : Nat) (now : PyDateTime) (store : Store),
      UniqueIds store → (∀ d ∈ store, docGet d "id" ≠ some (uuidToString gen)) →
      UniqueIds (create_submission input gen now store).1) ∧
    (∀ (store : Store) (sid : String), UniqueIds store →
      UniqueIds (delete_submission store sid).1) ∧
    (∀ store : Store, (get_submissions store).1 = store ∧
      (export_submissions_excel store).1 = store) := by
  refine ⟨?_, ?_, ?_, fun store => ⟨rfl, rfl⟩⟩
  · intro m n hne heq
    exact hne (uuidToString_inj m n heq)
  · intro input gen now store hu hfresh
    obtain ⟨doc, hst, hid, _, _⟩ := create_submission_store input gen now store
    have hpw : (store ++ [doc]).Pairwise (fun a b => docGet a "id" ≠ docGet b "id") := by
      rw [List.pairwise_append]
      refine ⟨hu, by simp, ?_⟩
      intro a ha b hb
      rcases List.mem_singleton.mp hb with rfl
      rw [hid]
      exact hfresh a ha
    rw [UniqueIds, hst]
    exact hpw
  · intro store sid hu
    rw [UniqueIds, delete_submission_store]
    exact List.Pairwise.sublist (deleteFirst_sublist sid store) hu

/-- C6 witness: two concrete distinct draws give distinct ids. -/
theorem ids_unique_invariant_witness : uuidToString 0 ≠ uuidToString 1 :=
  ids_unique_invariant.1 0 1 (by decide)

/-- C7: `created_at` is generated server-side at creation and serialized to
the same ISO-8601 string in the store and in the response; no operation
other than `Create` writes record fields — `List` and `Export` leave the
store untouched, `Delete` only removes whole records (the surviving store is
a sublist of the old one), and `Create` appends without touching existing
records. -/
theorem created_at_immutable_ops :
    (∀ (input : FormSubmissionCreate) (gen : Nat) (now : PyDateTime) (store : Store),
      ∃ doc, (create_submission input gen now store).1 = store ++ [doc] ∧
        docGet doc "created_at" = some (isoformat now) ∧
        (create_submission input gen now store).2.created_at = isoformat now) ∧
    (∀ store : Store, (get_submissions store).1 = store) ∧
    (∀ store : Store, (export_submissions_excel store).1 = store) ∧
    (∀ (store : Store) (sid : String), (delete_submission store sid).1.Sublist store) := by
  refine ⟨?_, fun _ => rfl, fun _ => rfl, ?_⟩
  · intro input gen now store
    obtain ⟨doc, hst, _, hcr, _⟩ := create_submission_store input gen now store
    exact ⟨doc, hst, hcr, rfl⟩
  · intro store sid
    rw [delete_submission_store]
    exact deleteFirst_sublist sid store

/-- C8: `Export` never mutates the store: the record set after an export
equals the one before, so a `List` right after an `Export` sees the same
records. -/
theorem export_never_mutates (store : Store) :
    (export_submissions_excel store).1 = store ∧
    get_submissions (export_submissions_excel store).1 = get_submissions store :=
  ⟨rfl, rfl⟩

/-- C9: the create schema is a strict allow-list: unrecognized input fields
never influence validation nor the stored document, and the stored document
carries exactly the twelve model fields. -/
theorem extra_fields_never_stored :
    (∀ (p : RawPayload) (e : List (String × String)),
      validateCreate { p with extra := e } = validateCreate p) ∧
    (∀ (input : FormSubmissionCreate) (gen : Nat) (now : PyDateTime) (store : Store),
      ∃ doc, (create_submission input gen now store).1 = store ++ [doc] ∧
        doc.map Prod.fst = docKeys) := by
  refine ⟨fun p e => rfl, ?_⟩
  intro input gen now store
  obtain ⟨doc, hst, _, _, hkeys⟩ := create_submission_store input gen now store
  exact ⟨doc, hst, hkeys⟩

/-- C10: every exported data row is total over arbitrary stored documents:
twelve cells, each field cell holding the document's value when the key is
present and the empty string when absent (a record missing any field,
`created_at` included, still yields a complete row). -/
theorem export_rows_total (seq : Nat) (d : Doc) :
    (dataRow seq d).length = 12 ∧
    (∀ j k, exportKeys[j]? = some k →
      (dataRow seq d)[j + 1]? = some (Cell.str ((docGet d k).getD ""))) ∧
    (∀ j k, exportKeys[j]? = some k → docGet d k = none →
      (dataRow seq d)[j + 1]? = some (Cell.str "")) ∧
    (∀ j k v, exportKeys[j]? = some k → docGet d k = some v →
      (dataRow seq d)[j + 1]? = some (Cell.str v)) ∧
    renderRows [[("shop_name", "S")]] =
      [headerRow,
       [Cell.num 1, Cell.str "", Cell.str "S", Cell.str "", Cell.str "",
        Cell.str "", Cell.str "", Cell.str "", Cell.str "", Cell.str "",
        Cell.str "", Cell.str ""]] := by
  have hmain : ∀ j k, exportKeys[j]? = some k →
      (dataRow seq d)[j + 1]? = some (Cell.str ((docGet d k).getD "")) := by
    intro j k hj
    rw [dataRow, List.getElem?_cons_succ, List.getElem?_map, hj]
    rfl
  refine ⟨by simp [dataRow, exportKeys], hmain, ?_, ?_, by decide⟩
  · intro j k hj hnone
    have h2 := hmain j k hj
    rw [hnone] at h2
    exact h2
  · intro j k v hj hsome
    have h2 := hmain j k hj
    rw [hsome] at h2
    exact h2

/-- C10 witness: the mobile-number column of a document missing that field. -/
theorem export_rows_total_witness :
    (dataRow 1 [("shop_name", "S")])[1]? = some (Cell.str "") :=
  (export_rows_total 1 [("shop_name", "S")]).2.2.1 0 "mobile_no" (by decide) (by decide)
